import Mathlib

/-!
Verification of the field-normalization and rendering-selection logic of the
memory-map client (`src/App.js` and its sibling versions).

The JavaScript helpers (`toLatLng`, `normalizeColor`, `iconForMemory`,
`getTextFields`, `getImages`, `canDelete`, and the marker-rendering loop) are
shallowly embedded below.  Untyped JavaScript values are modelled by the
inductive `JSVal`; JavaScript numbers are modelled by `JNum`, a rational
together with the three non-finite values `NaN`, `Infinity` and `-Infinity`
(binary-floating-point rounding is abstracted away: decimal literals are kept
exact, which is the granularity the source logic observes).  Records are
plain key/value maps: property access returns the first binding or
`undefined`; prototype-inherited properties are not modelled.
-/

namespace MemoryMap

/-- A JavaScript number: a finite value (kept as an exact rational) or one of
the non-finite values `NaN`, `Infinity`, `-Infinity`. -/
inductive JNum where
  | fin (q : ℚ)
  | nan
  | inf
  | ninf
deriving DecidableEq, Repr

/-- An untyped JavaScript value as stored in a document-store record. -/
inductive JSVal where
  | null
  | undefined
  | bool (b : Bool)
  | num (n : JNum)
  | str (s : String)
  | arr (xs : List JSVal)
  | obj (fields : List (String × JSVal))
deriving Repr

/-- JavaScript truthiness: `false`, `0`, `NaN`, `""`, `null` and `undefined`
are falsy; every other value (including every object and array) is truthy. -/
def truthy : JSVal → Bool
  | .null => false
  | .undefined => false
  | .bool b => b
  | .num .nan => false
  | .num (.fin q) => q != 0
  | .num .inf => true
  | .num .ninf => true
  | .str s => s != ""
  | .arr _ => true
  | .obj _ => true

/-- A value is nullish when it is `null` or `undefined` (the values skipped by
the `??` operator). -/
def nullish : JSVal → Bool
  | .null => true
  | .undefined => true
  | _ => false

/-- The JavaScript nullish-coalescing operator `a ?? b`. -/
def jsCoalesce (a b : JSVal) : JSVal :=
  if nullish a then b else a

/-- The JavaScript logical-or operator `a || b` (value-returning). -/
def jsOr (a b : JSVal) : JSVal :=
  if truthy a then a else b

/-- First binding of a key in a record's field list, `undefined` if absent. -/
def lookupField : List (String × JSVal) → String → JSVal
  | [], _ => .undefined
  | (k, v) :: rest, key => if k = key then v else lookupField rest key

/-- Property access `v.key` for the data keys used by the helpers: an object
yields its binding (or `undefined`), every other value yields `undefined`. -/
def getField (v : JSVal) (key : String) : JSVal :=
  match v with
  | .obj fields => lookupField fields key
  | _ => .undefined

/-- `typeof v === "number"`. -/
def isNumV : JSVal → Bool
  | .num _ => true
  | _ => false

/-- `typeof v === "string"`. -/
def isStr : JSVal → Bool
  | .str _ => true
  | _ => false

/-- `typeof v === "object"` (true for `null`, arrays and plain objects). -/
def isObjectTypeof : JSVal → Bool
  | .null => true
  | .arr _ => true
  | .obj _ => true
  | _ => false

/-- `Number.isFinite` on a JavaScript number. -/
def isFiniteNum : JNum → Bool
  | .fin _ => true
  | _ => false

/-! ### String conversion (`ToString`) and `parseFloat` -/

/-- JavaScript whitespace characters recognised by `trim` and `parseFloat`
(space, tab, LF, CR, VT, FF, NBSP, ZWNBSP; the remaining Unicode space
characters are not used by this repository's data). -/
def isJsWhite (c : Char) : Bool :=
  c == ' ' || c == '\t' || c == '\n' || c == '\r' ||
  c == Char.ofNat 11 || c == Char.ofNat 12 || c == Char.ofNat 160 ||
  c == Char.ofNat 65279

/-- Value of a decimal digit character. -/
def digitVal (c : Char) : ℕ := c.toNat - 48

/-- Value of a string of decimal digit characters. -/
def digitsToNat (ds : List Char) : ℕ :=
  ds.foldl (fun acc c => acc * 10 + digitVal c) 0

/-- Decimal digits of the fractional part of a nonnegative rational below 1,
produced by long division with fuel (exact whenever the expansion terminates
within the fuel; JavaScript's shortest-round-trip formatting of doubles is
approximated by the exact expansion of the modelled rational). -/
def fracDigits : ℚ → ℕ → List Char
  | _, 0 => []
  | q, n + 1 =>
    if q = 0 then []
    else
      let q10 := q * 10
      let d : ℤ := q10.num / (q10.den : ℤ)
      Char.ofNat (48 + d.toNat) :: fracDigits (q10 - (d : ℚ)) n

/-- Decimal rendering of a finite JavaScript number. -/
def ratToDecimalString (q : ℚ) : String :=
  let sign := if q < 0 then "-" else ""
  let aq : ℚ := |q|
  let ipZ : ℤ := aq.num / (aq.den : ℤ)
  let frac : ℚ := aq - (ipZ : ℚ)
  if frac = 0 then sign ++ toString ipZ.toNat
  else sign ++ toString ipZ.toNat ++ "." ++ String.mk (fracDigits frac 64)

/-- `ToString` on a JavaScript number. -/
def numToString : JNum → String
  | .nan => "NaN"
  | .inf => "Infinity"
  | .ninf => "-Infinity"
  | .fin q => ratToDecimalString q

mutual

/-- JavaScript `ToString`: the conversion applied by `parseFloat` and by the
`.toString()` call on the category field. -/
def jsToString : JSVal → String
  | .null => "null"
  | .undefined => "undefined"
  | .bool true => "true"
  | .bool false => "false"
  | .num n => numToString n
  | .str s => s
  | .arr xs => String.intercalate "," (jsToStringElems xs)
  | .obj _ => "[object Object]"

/-- Element strings of `Array.prototype.join`: `null` and `undefined`
elements become the empty string. -/
def jsToStringElems : List JSVal → List String
  | [] => []
  | .null :: xs => "" :: jsToStringElems xs
  | .undefined :: xs => "" :: jsToStringElems xs
  | x :: xs => jsToString x :: jsToStringElems xs

end

/-- `String.prototype.trim`: strip leading and trailing whitespace. -/
def jsTrim (s : String) : String :=
  String.mk (((s.toList.dropWhile isJsWhite).reverse.dropWhile isJsWhite).reverse)

/-- `String.prototype.toLowerCase` (ASCII range; the category table keys are
ASCII). -/
def jsToLower (s : String) : String :=
  String.mk (s.toList.map Char.toLower)

/-- Exponent digits of a `StrDecimalLiteral` exponent part: optional sign then
at least one digit; `none` when no digit follows (the exponent marker is then
not part of the parsed prefix). -/
def expDigits : List Char → Option ℤ
  | '+' :: ds =>
      let t := ds.takeWhile Char.isDigit
      if t.isEmpty then none else some (digitsToNat t : ℤ)
  | '-' :: ds =>
      let t := ds.takeWhile Char.isDigit
      if t.isEmpty then none else some (-(digitsToNat t : ℤ))
  | ds =>
      let t := ds.takeWhile Char.isDigit
      if t.isEmpty then none else some (digitsToNat t : ℤ)

/-- Exponent contributed by an optional `ExponentPart` prefix (`e`/`E`,
optional sign, digits); `0` when absent or incomplete. -/
def exponentOf : List Char → ℤ
  | c :: rest => if c == 'e' || c == 'E' then (expDigits rest).getD 0 else 0
  | [] => 0

/-- Longest `StrUnsignedDecimalLiteral` prefix (digits, optional fraction,
optional exponent); `none` when no digit is present. -/
def parseUnsignedDecimal (cs : List Char) : Option ℚ :=
  let ip := cs.takeWhile Char.isDigit
  let rest1 := cs.dropWhile Char.isDigit
  let fpRest : List Char × List Char :=
    match rest1 with
    | '.' :: r => (r.takeWhile Char.isDigit, r.dropWhile Char.isDigit)
    | _ => ([], rest1)
  let fp := fpRest.1
  let rest2 := fpRest.2
  if ip.isEmpty && fp.isEmpty then none
  else
    let mant : ℚ := (digitsToNat ip : ℚ) + (digitsToNat fp : ℚ) / (10 : ℚ) ^ fp.length
    let e := exponentOf rest2
    some (if 0 ≤ e then mant * (10 : ℚ) ^ e.toNat else mant / (10 : ℚ) ^ (-e).toNat)

/-- ECMAScript `parseFloat` on a character sequence: strip leading whitespace,
read an optional sign, then the longest `Infinity`-or-decimal prefix; `NaN`
when no prefix parses. -/
def parseFloatChars (cs0 : List Char) : JNum :=
  let cs := cs0.dropWhile isJsWhite
  let signRest : Bool × List Char :=
    match cs with
    | '+' :: r => (false, r)
    | '-' :: r => (true, r)
    | r => (false, r)
  let neg := signRest.1
  let cs1 := signRest.2
  if "Infinity".toList.isPrefixOf cs1 then (if neg then .ninf else .inf)
  else
    match parseUnsignedDecimal cs1 with
    | some q => .fin (if neg then -q else q)
    | none => .nan

/-- `parseFloat(v)`: the argument is converted with `ToString` first. -/
def parseFloat (v : JSVal) : JNum :=
  parseFloatChars (jsToString v).toList

/-! ### `toLatLng` (CoordinateNormalizer, `App.js` lines 97-111) -/

/-- `coord.Latitude ?? coord.LAT ?? coord.lat ?? coord.latitude` (line 106). -/
def rawLatOf (coord : JSVal) : JSVal :=
  jsCoalesce (getField coord "Latitude")
    (jsCoalesce (getField coord "LAT")
      (jsCoalesce (getField coord "lat") (getField coord "latitude")))

/-- `coord.Longitude ?? coord.LONG ?? coord.lng ?? coord.lon ?? coord.longitude`
(line 107). -/
def rawLngOf (coord : JSVal) : JSVal :=
  jsCoalesce (getField coord "Longitude")
    (jsCoalesce (getField coord "LONG")
      (jsCoalesce (getField coord "lng")
        (jsCoalesce (getField coord "lon") (getField coord "longitude"))))

/-- `typeof raw === "number" ? raw : parseFloat(raw)` (lines 108-109). -/
def numOrParse (v : JSVal) : JNum :=
  match v with
  | .num n => n
  | w => parseFloat w

/-- `toLatLng`: normalise any coordinate shape into a latitude/longitude pair,
`none` for the `null` sentinel. -/
def toLatLng (coord : JSVal) : Option (JNum × JNum) :=
  if !truthy coord then none
  else
    match getField coord "latitude", getField coord "longitude" with
    | .num la, .num lo => some (la, lo)
    | _, _ =>
      match getField coord "lat", jsCoalesce (getField coord "lng") (getField coord "lon") with
      | .num la, .num lo => some (la, lo)
      | _, _ =>
        if isFiniteNum (numOrParse (rawLatOf coord))
            && isFiniteNum (numOrParse (rawLngOf coord))
        then some (numOrParse (rawLatOf coord), numOrParse (rawLngOf coord))
        else none

/-! ### `normalizeColor` and `iconForMemory` (MarkerStyleSelector,
`App.js` lines 35-93) -/

/-- Hex digit class of the regexes `[0-9a-fA-F]`. -/
def isHexDigit (c : Char) : Bool :=
  c.isDigit || ('a' ≤ c && c ≤ 'f') || ('A' ≤ c && c ≤ 'F')

/-- The test `/^#[0-9a-fA-F]{6}$/.test(s)`. -/
def hexColor6Test (s : String) : Bool :=
  match s.toList with
  | c :: rest => c == '#' && rest.length == 6 && rest.all isHexDigit
  | [] => false

/-- The test `/^#[0-9a-fA-F]{3}$/.test(s)`. -/
def hexColor3Test (s : String) : Bool :=
  match s.toList with
  | c :: rest => c == '#' && rest.length == 3 && rest.all isHexDigit
  | [] => false

/-- `normalizeColor`: accept `#rgb` (expanded to `#rrggbb`) or `#rrggbb` after
trimming; every other value maps to the absent sentinel `null` (`none`). -/
def normalizeColor (raw : JSVal) : Option String :=
  match raw with
  | .str t =>
    if hexColor6Test (jsTrim t) then some (jsTrim t)
    else if hexColor3Test (jsTrim t) then
      match (jsTrim t).toList with
      | _ :: r :: g :: b :: _ => some (String.mk ['#', r, r, g, g, b, b])
      | _ => none
    else none
  | _ => none

/-- The `CATEGORY_COLORS` table (`App.js` lines 35-42). -/
def CATEGORY_COLORS : List (String × String) :=
  [("holiday", "#f59e0b"),
   ("datenight", "#ec4899"),
   ("friends", "#22c55e"),
   ("work", "#3b82f6"),
   ("other", "#6b7280"),
   ("default", "#3b82f6")]

/-- `CATEGORY_COLORS.default`. -/
def categoryColorDefault : String := "#3b82f6"

/-- Property names of `Object.prototype` (including the Annex B accessor
properties present in every mainstream engine): JavaScript bracket access on
the `CATEGORY_COLORS` object literal consults this prototype after the own
entries, and every one of these inherited values is a function or object,
hence truthy. -/
def OBJECT_PROTOTYPE_KEYS : List String :=
  ["constructor", "hasOwnProperty", "isPrototypeOf", "propertyIsEnumerable",
   "toLocaleString", "toString", "valueOf", "__proto__", "__defineGetter__",
   "__defineSetter__", "__lookupGetter__", "__lookupSetter__"]

/-- The value that `CATEGORY_COLORS[key] || CATEGORY_COLORS.default` can
produce: one of the table's colour strings (or the default), or a truthy
function/object inherited from `Object.prototype` when the key names one of
its properties.  An inherited value is kept symbolically by its property
name; in the program it is stringified into the SVG fill (for example
`Object.prototype` renders as `[object Object]`), which is never equal to
any colour string. -/
inductive StyleValue where
  | colorStr (c : String)
  | protoProperty (name : String)
deriving DecidableEq, Repr

/-- A rendered pin icon, identified by the data that `makePinIcon` bakes into
the SVG: the fill value and the stroke. -/
structure PinIcon where
  color : StyleValue
  stroke : String
deriving DecidableEq, Repr

/-- `makePinIcon(color)` with the default stroke. -/
def makePinIcon (color : StyleValue) : PinIcon :=
  { color := color, stroke := "#111827" }

/-- `iconFromColor`: the by-colour cache is a pure memoization of
`makePinIcon` and is observationally the identity mapping. -/
def iconFromColor (color : StyleValue) : PinIcon :=
  makePinIcon color

/-- `normalizeColor(memory.color || memory.pinColor || memory.colour)`. -/
def explicitColorOf (memory : JSVal) : Option String :=
  normalizeColor
    (jsOr (getField memory "color")
      (jsOr (getField memory "pinColor") (getField memory "colour")))

/-- `(memory.category || "").toString().trim().toLowerCase()`. -/
def categoryKeyOf (memory : JSVal) : String :=
  jsToLower (jsTrim (jsToString (jsOr (getField memory "category") (.str ""))))

/-- `CATEGORY_COLORS[key] || CATEGORY_COLORS.default` (lines 89-91), with
JavaScript bracket-access semantics: an own entry of the object literal wins;
otherwise a key naming an `Object.prototype` property yields that inherited
truthy value, so `||` keeps it; only for the remaining keys is the access
`undefined` (falsy) and the fixed default used. -/
def categoryFallbackValue (memory : JSVal) : StyleValue :=
  match CATEGORY_COLORS.lookup (categoryKeyOf memory) with
  | some c => .colorStr c
  | none =>
    if OBJECT_PROTOTYPE_KEYS.contains (categoryKeyOf memory) then
      .protoProperty (categoryKeyOf memory)
    else .colorStr categoryColorDefault

/-- `iconForMemory`: prefer the explicit colour when it normalizes, else the
category fallback.  The source guard `if (explicit)` tests JS truthiness of
the `normalizeColor` result, which is `null` or a nonempty `#`-string, so
truthiness coincides with non-null (`normalizeColor_ne_empty` below). -/
def iconForMemory (memory : JSVal) : PinIcon :=
  match explicitColorOf memory with
  | some explicit => iconFromColor (.colorStr explicit)
  | none => iconFromColor (categoryFallbackValue memory)

/-! ### `getTextFields` and `getImages` (FieldResolver,
`App.js` lines 114-158) -/

/-- Result of `getTextFields`. -/
structure TextFields where
  title : JSVal
  description : JSVal
deriving Repr

/-- `getTextFields`: `??`-fallback chains for the display title and
description. -/
def getTextFields (memory : JSVal) : TextFields :=
  { title :=
      jsCoalesce (getField memory "title")
        (jsCoalesce (getField memory "name")
          (jsCoalesce (getField memory "Title") (.str "Untitled location"))),
    description :=
      jsCoalesce (getField memory "description")
        (jsCoalesce (getField memory "desc")
          (jsCoalesce (getField memory "Details")
            (jsCoalesce (getField memory "text")
              (jsCoalesce (getField memory "Description") (.str ""))))) }

/-- One entry of the normalised image list. -/
structure ImageEntry where
  src : JSVal
  caption : JSVal
deriving Repr

/-- The image-bearing field:
`memory.images ?? memory.photos ?? ... ?? memory.Image ?? []`. -/
def rawImagesOf (memory : JSVal) : JSVal :=
  jsCoalesce (getField memory "images")
    (jsCoalesce (getField memory "photos")
      (jsCoalesce (getField memory "image")
        (jsCoalesce (getField memory "photo")
          (jsCoalesce (getField memory "imageUrl")
            (jsCoalesce (getField memory "imageURL")
              (jsCoalesce (getField memory "Image") (.arr [])))))))

/-- `item.url ?? item.src ?? item.downloadURL ?? ""`. -/
def imageSrcOf (item : JSVal) : JSVal :=
  jsCoalesce (getField item "url")
    (jsCoalesce (getField item "src")
      (jsCoalesce (getField item "downloadURL") (.str "")))

/-- `item.caption ?? item.alt ?? ""`. -/
def imageCaptionOf (item : JSVal) : JSVal :=
  jsCoalesce (getField item "caption")
    (jsCoalesce (getField item "alt") (.str ""))

/-- The arrow function mapped over an images array (lines 140-147), composed
with the `.filter(Boolean)` removal of the `null` results. -/
def imageItem (item : JSVal) : Option ImageEntry :=
  match item with
  | .str s => some { src := .str s, caption := .str "" }
  | _ =>
    if truthy item && isObjectTypeof item then
      let src := imageSrcOf item
      if truthy src then some { src := src, caption := imageCaptionOf item } else none
    else none

/-- `getImages`: normalise the image-bearing field to a list of
`{src, caption}` entries. -/
def getImages (memory : JSVal) : List ImageEntry :=
  match rawImagesOf memory with
  | .arr items => items.filterMap imageItem
  | .str s => [{ src := .str s, caption := .str "" }]
  | raw =>
    if truthy raw && isObjectTypeof raw then
      let src := imageSrcOf raw
      if truthy src then [{ src := src, caption := imageCaptionOf raw }] else []
    else []

/-! ### The marker-rendering loop (`App.js` lines 403-407) -/

/-- `memory.coordinates ?? memory.Coordinates ?? memory.location ??
memory.position`. -/
def coordFieldOf (memory : JSVal) : JSVal :=
  jsCoalesce (getField memory "coordinates")
    (jsCoalesce (getField memory "Coordinates")
      (jsCoalesce (getField memory "location") (getField memory "position")))

/-- The data of one rendered `<Marker>`. -/
structure MarkerView where
  id : JSVal
  position : JNum × JNum
  icon : PinIcon
  title : JSVal
  description : JSVal
  images : List ImageEntry
deriving Repr

/-- Body of `memories.map(...)`: `null` (no marker) when `toLatLng` yields the
sentinel, otherwise one marker. -/
def renderMarker (memory : JSVal) : Option MarkerView :=
  match toLatLng (coordFieldOf memory) with
  | none => none
  | some pos =>
    some { id := getField memory "id",
           position := pos,
           icon := iconForMemory memory,
           title := (getTextFields memory).title,
           description := (getTextFields memory).description,
           images := getImages memory }

/-- The markers of one rendered snapshot (React drops the `null` entries). -/
def renderedMarkers (memories : List JSVal) : List MarkerView :=
  memories.filterMap renderMarker

/-! ### `canDelete` (comments subcollection, second source version
lines 978-979) -/

/-- The signed-in identity delivered by the auth SDK (`user.uid` is a nonempty
opaque string for a real account; we keep it an arbitrary string). -/
structure AuthUser where
  uid : String
deriving DecidableEq, Repr

/-- JavaScript strict equality `v === s` between an arbitrary stored value and
a string: only a string compares equal. -/
def jsStrictEqStr (v : JSVal) (s : String) : Bool :=
  match v with
  | .str t => t == s
  | _ => false

/-- `canDelete`:
`user && (user.uid === ownerUid || (c.authorUid && c.authorUid === user.uid))`,
read in the boolean position that guards the delete button. -/
def canDelete (user : Option AuthUser) (ownerUid : String) (c : JSVal) : Bool :=
  match user with
  | none => false
  | some u =>
    u.uid == ownerUid ||
      (truthy (getField c "authorUid") && jsStrictEqStr (getField c "authorUid") u.uid)

/-! ### Specification-side definitions

The following definitions transcribe the wording of the specification (first
non-absent candidate, first truthy colour field, the per-element image rule,
the hex-colour shapes).  The theorems below compare them with the embedded
source functions. -/

/-- Spec: the first value in the candidate list that is not absent (nullish),
or the given default when every candidate is absent. -/
def firstNonAbsent (vs : List JSVal) (dflt : JSVal) : JSVal :=
  match vs with
  | [] => dflt
  | v :: rest => if nullish v then firstNonAbsent rest dflt else v

/-- Spec: the first truthy value in the candidate list, `undefined` when every
candidate is falsy. -/
def firstTruthyVal (vs : List JSVal) : JSVal :=
  match vs with
  | [] => .undefined
  | v :: rest => if truthy v then v else firstTruthyVal rest

/-- Spec: the 3- or 6-hex-digit case-insensitive `#`-prefixed colour form. -/
def hexShapeTest (s : String) : Bool :=
  match s.toList with
  | c :: ds => c == '#' && (ds.length == 3 || ds.length == 6) && ds.all isHexDigit
  | [] => false

/-- Spec: extraction rule for one structured image element — `src` from the
first non-absent of `url`/`src`/`downloadURL`, `caption` from the first
non-absent of `caption`/`alt`, the entry discarded when the resolved source
is empty/absent (falsy). -/
def specStructuredImage (item : JSVal) : Option ImageEntry :=
  let src := firstNonAbsent [getField item "url", getField item "src", getField item "downloadURL"] (.str "")
  let cap := firstNonAbsent [getField item "caption", getField item "alt"] (.str "")
  if truthy src then some { src := src, caption := cap } else none

/-- Spec: per-element image rule — a string element becomes an entry with an
empty caption; a structured (object-typed) element goes through
`specStructuredImage`; any other element is discarded. -/
def specImageEntry (item : JSVal) : Option ImageEntry :=
  match item with
  | .str s => some { src := .str s, caption := .str "" }
  | .obj _ => specStructuredImage item
  | .arr _ => specStructuredImage item
  | _ => none

/-- Spec: image extraction on the resolved image-bearing field — an array maps
element-wise (order preserved), a single string becomes a one-element list, a
single structured value follows the same extraction rule, anything else
yields the empty list. -/
def specGetImages (memory : JSVal) : List ImageEntry :=
  match rawImagesOf memory with
  | .arr items => items.filterMap specImageEntry
  | .str s => [{ src := .str s, caption := .str "" }]
  | v => (specImageEntry v).toList

/-! ### Supporting lemmas -/

lemma stringMk_toList (s : String) : String.mk s.toList = s := rfl

lemma dropWhile_eq_self_of (p : Char → Bool) (l : List Char)
    (h : ∀ c ∈ l, p c = false) : l.dropWhile p = l := by
  cases l with
  | nil => rfl
  | cons c cs => simp [List.dropWhile_cons, h c (List.mem_cons_self c cs)]

lemma jsTrim_eq_of_nonwhite (s : String) (h : ∀ c ∈ s.toList, isJsWhite c = false) :
    jsTrim s = s := by
  unfold jsTrim
  rw [dropWhile_eq_self_of _ _ h]
  rw [dropWhile_eq_self_of _ _ (fun c hc => h c (List.mem_reverse.mp hc))]
  rw [List.reverse_reverse, stringMk_toList]

lemma isHexDigit_not_white (c : Char) (h : isHexDigit c = true) : isJsWhite c = false := by
  by_contra hw
  have hw' : isJsWhite c = true := by
    cases hval : isJsWhite c
    · exact absurd hval hw
    · rfl
  simp only [isJsWhite, Bool.or_eq_true, beq_iff_eq] at hw'
  rcases hw' with (((((((h1 | h1) | h1) | h1) | h1) | h1) | h1) | h1) <;> subst h1 <;>
    exact absurd h (by decide)

lemma normalizeColor_falsy (v : JSVal) (h : truthy v = false) : normalizeColor v = none := by
  cases v with
  | str s =>
    have hs : s = "" := by simpa [truthy] using h
    subst hs
    rfl
  | null => rfl
  | undefined => rfl
  | bool b => rfl
  | num n => rfl
  | arr xs => rfl
  | obj fs => rfl

lemma hexColor6Test_shape (s : String) (h : hexColor6Test s = true) :
    ∃ ds, s.toList = '#' :: ds ∧ ds.length = 6 ∧ ∀ c ∈ ds, isHexDigit c = true := by
  unfold hexColor6Test at h
  split at h
  · rename_i c rest heq
    simp only [Bool.and_eq_true, beq_iff_eq, List.all_eq_true] at h
    exact ⟨rest, by rw [heq, h.1.1], h.1.2, h.2⟩
  · exact Bool.noConfusion h

lemma hexColor3Test_shape (s : String) (h : hexColor3Test s = true) :
    ∃ ds, s.toList = '#' :: ds ∧ ds.length = 3 ∧ ∀ c ∈ ds, isHexDigit c = true := by
  unfold hexColor3Test at h
  split at h
  · rename_i c rest heq
    simp only [Bool.and_eq_true, beq_iff_eq, List.all_eq_true] at h
    exact ⟨rest, by rw [heq, h.1.1], h.1.2, h.2⟩
  · exact Bool.noConfusion h

lemma hexColor6Test_of_shape (ds : List Char) (hlen : ds.length = 6)
    (hhex : ∀ c ∈ ds, isHexDigit c = true) :
    hexColor6Test (String.mk ('#' :: ds)) = true := by
  unfold hexColor6Test
  simp [hlen, List.all_eq_true]
  exact hhex

lemma hexColor3Test_of_shape (ds : List Char) (hlen : ds.length = 3)
    (hhex : ∀ c ∈ ds, isHexDigit c = true) :
    hexColor3Test (String.mk ('#' :: ds)) = true := by
  unfold hexColor3Test
  simp [hlen, List.all_eq_true]
  exact hhex

lemma toList_mk (l : List Char) : (String.mk l).toList = l := rfl

lemma firstNonAbsent_coalesce3 (a b c d : JSVal) :
    firstNonAbsent [a, b, c] d = jsCoalesce a (jsCoalesce b (jsCoalesce c d)) := rfl

lemma firstNonAbsent_coalesce2 (a b d : JSVal) :
    firstNonAbsent [a, b] d = jsCoalesce a (jsCoalesce b d) := rfl

lemma toList_ite_option (c : Bool) (e : ImageEntry) :
    (if c = true then some e else none).toList = if c = true then [e] else [] := by
  cases c <;> rfl

lemma imageItem_eq_spec (item : JSVal) : imageItem item = specImageEntry item := by
  cases item with
  | str s => rfl
  | obj fs => rfl
  | arr xs => rfl
  | null => rfl
  | undefined => rfl
  | bool b => cases b <;> rfl
  | num n => simp [imageItem, specImageEntry, isObjectTypeof]

lemma getImages_eq_spec (m : JSVal) : getImages m = specGetImages m := by
  have hfun : imageItem = specImageEntry := funext imageItem_eq_spec
  unfold getImages specGetImages
  cases hraw : rawImagesOf m with
  | arr items => simp [hfun]
  | str s => rfl
  | null => rfl
  | undefined => rfl
  | bool b => cases b <;> rfl
  | num n => simp [specImageEntry, isObjectTypeof]
  | obj fs =>
    simp only [truthy, isObjectTypeof, Bool.and_self, specImageEntry, specStructuredImage,
      toList_ite_option, imageSrcOf, imageCaptionOf, firstNonAbsent_coalesce3,
      firstNonAbsent_coalesce2, if_true]

lemma hexShapeTest_of_shape (s : String) (ds : List Char) (hds : s.toList = '#' :: ds)
    (hlen : ds.length = 3 ∨ ds.length = 6) (hhex : ∀ c ∈ ds, isHexDigit c = true) :
    hexShapeTest s = true := by
  unfold hexShapeTest
  rw [hds]
  rcases hlen with h | h <;> simp [List.all_eq_true, h] <;> exact hhex

lemma normalizeColor_ne_empty (v : JSVal) (c : String) (h : normalizeColor v = some c) :
    c ≠ "" := by
  cases v with
  | str t =>
    simp only [normalizeColor] at h
    split at h
    · rename_i h6
      obtain ⟨ds, hds, -, -⟩ := hexColor6Test_shape _ h6
      rw [Option.some_inj] at h
      intro hc
      rw [h, hc] at hds
      exact List.noConfusion (show ([] : List Char) = '#' :: ds from hds)
    · split at h
      · split at h
        · rename_i r g b tl heq
          rw [Option.some_inj] at h
          intro hc
          rw [hc] at h
          exact List.noConfusion
            (show ('#' :: [r, r, g, g, b, b] : List Char) = [] from congrArg String.data h)
        · exact Option.noConfusion h
      · exact Option.noConfusion h
  | null => exact Option.noConfusion h
  | undefined => exact Option.noConfusion h
  | bool b => exact Option.noConfusion h
  | num n => exact Option.noConfusion h
  | arr xs => exact Option.noConfusion h
  | obj fs => exact Option.noConfusion h

lemma explicitColorOf_eq_firstTruthy (m : JSVal) :
    normalizeColor (firstTruthyVal
      [getField m "color", getField m "pinColor", getField m "colour"])
      = explicitColorOf m := by
  cases ha : truthy (getField m "color") with
  | true => simp [explicitColorOf, jsOr, firstTruthyVal, ha]
  | false =>
    cases hb : truthy (getField m "pinColor") with
    | true => simp [explicitColorOf, jsOr, firstTruthyVal, ha, hb]
    | false =>
      cases hc : truthy (getField m "colour") with
      | true => simp [explicitColorOf, jsOr, firstTruthyVal, ha, hb, hc]
      | false =>
        have hnc := normalizeColor_falsy _ hc
        have hnu : normalizeColor .undefined = none := rfl
        simp [explicitColorOf, jsOr, firstTruthyVal, ha, hb, hc, hnc, hnu]

/-! ### Claim theorems -/

/-- Claim C2: for every input map in which the fields named exactly
`latitude` and `longitude` are both numeric, `toLatLng` returns exactly the
pair `[latitude, longitude]` unchanged, regardless of any other
coordinate-like fields present (the canonical shape is matched first, first
match wins). -/
theorem toLatLng_canonical_first (m : JSVal) (a b : JNum)
    (hla : getField m "latitude" = .num a) (hlo : getField m "longitude" = .num b) :
    toLatLng m = some (a, b) := by
  cases m with
  | obj fields => simp [toLatLng, truthy, hla, hlo]
  | null => exact absurd hla (by simp [getField])
  | undefined => exact absurd hla (by simp [getField])
  | bool b2 => exact absurd hla (by simp [getField])
  | num n2 => exact absurd hla (by simp [getField])
  | str s2 => exact absurd hla (by simp [getField])
  | arr xs2 => exact absurd hla (by simp [getField])

/-- Witness for C2: a record carrying the canonical pair and a decoy `lat`
field resolves to the canonical pair. -/
theorem toLatLng_canonical_first_witness :
    toLatLng (JSVal.obj [("latitude", .num (.fin 10)), ("lat", .num (.fin 99)),
      ("longitude", .num (.fin 20))]) = some (.fin 10, .fin 20) :=
  toLatLng_canonical_first _ _ _ rfl rfl

/-- Claim C3: for every input map whose only coordinate fields are `lat` and
`lon` holding numeric-parseable text, `toLatLng` returns the pair obtained by
standard decimal parsing of those strings. -/
theorem toLatLng_lat_lon_strings (m : JSVal) (s t : String) (a b : ℚ)
    (hlat : getField m "lat" = .str s) (hlon : getField m "lon" = .str t)
    (h1 : getField m "latitude" = .undefined) (h2 : getField m "longitude" = .undefined)
    (h3 : getField m "lng" = .undefined) (h4 : getField m "Latitude" = .undefined)
    (h5 : getField m "LAT" = .undefined) (h6 : getField m "Longitude" = .undefined)
    (h7 : getField m "LONG" = .undefined)
    (hs : parseFloat (.str s) = .fin a) (ht : parseFloat (.str t) = .fin b) :
    toLatLng m = some (.fin a, .fin b) := by
  cases m with
  | obj fields =>
    simp [toLatLng, truthy, rawLatOf, rawLngOf, numOrParse, jsCoalesce, nullish,
      hlat, hlon, h1, h2, h3, h4, h5, h6, h7, hs, ht, isFiniteNum]
  | null => exact absurd hlat (by simp [getField])
  | undefined => exact absurd hlat (by simp [getField])
  | bool b2 => exact absurd hlat (by simp [getField])
  | num n2 => exact absurd hlat (by simp [getField])
  | str s2 => exact absurd hlat (by simp [getField])
  | arr xs2 => exact absurd hlat (by simp [getField])

/-- Witness for C3: `{lat: "48.8", lon: "2.3"}` resolves to `[48.8, 2.3]`. -/
theorem toLatLng_lat_lon_strings_witness :
    toLatLng (JSVal.obj [("lat", .str "48.8"), ("lon", .str "2.3")])
      = some (.fin (244 / 5), .fin (23 / 10)) :=
  toLatLng_lat_lon_strings _ "48.8" "2.3" _ _ rfl rfl rfl rfl rfl rfl rfl rfl rfl
    (by with_unfolding_all decide) (by with_unfolding_all decide)

/-- Claim C7: `getTextFields` returns as title the first non-absent value
among `title`, `name`, `Title` (placeholder `"Untitled location"` when all
are absent) and as description the first non-absent value among
`description`, `desc`, `Details`, `text`, `Description` (default `""`);
`{name: "Picnic"}` yields title `"Picnic"` and `{}` yields the placeholder. -/
theorem getTextFields_fallback_chain :
    (∀ m, (getTextFields m).title =
        firstNonAbsent [getField m "title", getField m "name", getField m "Title"]
          (.str "Untitled location")
      ∧ (getTextFields m).description =
        firstNonAbsent [getField m "description", getField m "desc", getField m "Details",
          getField m "text", getField m "Description"] (.str ""))
    ∧ (getTextFields (JSVal.obj [("name", .str "Picnic")])).title = .str "Picnic"
    ∧ (getTextFields (JSVal.obj [])).title = .str "Untitled location" :=
  ⟨fun _ => ⟨rfl, rfl⟩, rfl, rfl⟩

/-- Claim C9: `canDelete` holds only when an acting identity is present and
either its uid equals the designated owner uid, or the comment carries an
author uid equal to the acting identity's uid. -/
theorem canDelete_only_owner_or_author (user : Option AuthUser) (ownerUid : String)
    (c : JSVal) (h : canDelete user ownerUid c = true) :
    ∃ u, user = some u ∧ (u.uid = ownerUid ∨ getField c "authorUid" = .str u.uid) := by
  cases user with
  | none => exact Bool.noConfusion h
  | some u =>
    refine ⟨u, rfl, ?_⟩
    simp only [canDelete, Bool.or_eq_true, Bool.and_eq_true, beq_iff_eq] at h
    rcases h with h | ⟨-, heq⟩
    · exact Or.inl h
    · right
      cases hga : getField c "authorUid" with
      | str t2 =>
        rw [hga] at heq
        simp only [jsStrictEqStr, beq_iff_eq] at heq
        rw [heq]
      | null => rw [hga] at heq; exact Bool.noConfusion heq
      | undefined => rw [hga] at heq; exact Bool.noConfusion heq
      | bool b2 => rw [hga] at heq; exact Bool.noConfusion heq
      | num n2 => rw [hga] at heq; exact Bool.noConfusion heq
      | arr xs2 => rw [hga] at heq; exact Bool.noConfusion heq
      | obj fs2 => rw [hga] at heq; exact Bool.noConfusion heq

/-- Witness for C9: the owner may delete an anonymous comment. -/
theorem canDelete_only_owner_or_author_witness :
    ∃ u, (some (AuthUser.mk "owner-1") : Option AuthUser) = some u
      ∧ (u.uid = "owner-1" ∨ getField (JSVal.obj []) "authorUid" = .str u.uid) :=
  canDelete_only_owner_or_author (some (AuthUser.mk "owner-1")) "owner-1"
    (JSVal.obj []) rfl

/-- Claim C10: a bare string element of the images array that is the empty
string is kept by `getImages` and produces an entry with empty source and
caption; the returned list can therefore contain entries whose `src` is
empty. -/
theorem getImages_keeps_empty_string (xs : List JSVal) (h : JSVal.str "" ∈ xs) :
    ({ src := JSVal.str "", caption := JSVal.str "" } : ImageEntry)
      ∈ getImages (JSVal.obj [("images", JSVal.arr xs)]) := by
  have hraw : rawImagesOf (JSVal.obj [("images", JSVal.arr xs)]) = JSVal.arr xs := rfl
  simp only [getImages, hraw]
  exact List.mem_filterMap.mpr ⟨JSVal.str "", h, rfl⟩

/-- Witness for C10: the one-element array `[""]` keeps its empty-string
entry. -/
theorem getImages_keeps_empty_string_witness :
    ({ src := JSVal.str "", caption := JSVal.str "" } : ImageEntry)
      ∈ getImages (JSVal.obj [("images", JSVal.arr [JSVal.str ""])]) :=
  getImages_keeps_empty_string [JSVal.str ""] (List.mem_singleton.mpr rfl)

/-- Claim C8: a record whose coordinate field (`coordinates`, `Coordinates`,
`location` or `position`) does not resolve through `toLatLng` produces no
marker: it is silently excluded from the rendered snapshot. -/
theorem unresolved_coordinates_not_rendered (m : JSVal) (ms : List JSVal)
    (h : toLatLng (coordFieldOf m) = none) :
    renderMarker m = none
    ∧ renderedMarkers (m :: ms) = renderedMarkers ms
    ∧ renderedMarkers (ms ++ [m]) = renderedMarkers ms := by
  have hrm : renderMarker m = none := by
    simp only [renderMarker, h]
  exact ⟨hrm, by simp [renderedMarkers, hrm], by simp [renderedMarkers, hrm]⟩

/-- Witness for C8: a record without coordinates adds no marker to a
snapshot that renders one marker. -/
theorem unresolved_coordinates_not_rendered_witness :
    renderMarker (JSVal.obj [("title", .str "No place")]) = none
    ∧ renderedMarkers [JSVal.obj [("title", .str "No place")],
        JSVal.obj [("coordinates", JSVal.obj [("latitude", .num (.fin 1)),
          ("longitude", .num (.fin 2))])]]
      = renderedMarkers [JSVal.obj [("coordinates", JSVal.obj [("latitude", .num (.fin 1)),
          ("longitude", .num (.fin 2))])]]
    ∧ renderedMarkers ([JSVal.obj [("coordinates", JSVal.obj [("latitude", .num (.fin 1)),
          ("longitude", .num (.fin 2))])]] ++ [JSVal.obj [("title", .str "No place")]])
      = renderedMarkers [JSVal.obj [("coordinates", JSVal.obj [("latitude", .num (.fin 1)),
          ("longitude", .num (.fin 2))])]] :=
  unresolved_coordinates_not_rendered (JSVal.obj [("title", .str "No place")])
    [JSVal.obj [("coordinates", JSVal.obj [("latitude", .num (.fin 1)),
      ("longitude", .num (.fin 2))])]] rfl

/-- Claim C6: `getImages` returns an ordered list of `{src, caption}` entries
preserving source order and never fails: an array maps element-wise (a string
element keeps an empty caption; a structured element takes `src` from
`url`/`src`/`downloadURL` and `caption` from `caption`/`alt` and is discarded
when its resolved source is empty/absent); a single string or a single
structured value becomes a one-element list; anything else yields the empty
list.  The two worked examples of the specification are included. -/
theorem getImages_spec_conformance :
    (∀ m, getImages m = specGetImages m)
    ∧ getImages (JSVal.obj [("images", .arr [.str "a.jpg",
        .obj [("url", .str "b.jpg"), ("caption", .str "Sunset")]])])
      = [{ src := .str "a.jpg", caption := .str "" },
         { src := .str "b.jpg", caption := .str "Sunset" }]
    ∧ getImages (JSVal.obj [("images", .str "c.jpg")])
      = [{ src := .str "c.jpg", caption := .str "" }] :=
  ⟨getImages_eq_spec, rfl, rfl⟩

/-- Claim C5: `normalizeColor` expands a `#`-prefixed 3-hex-digit string by
doubling each digit, returns a `#`-prefixed 6-hex-digit string unchanged, and
returns the absent sentinel for every non-string and every string that does
not match the 3- or 6-hex-digit `#`-prefixed form after trimming. -/
theorem normalizeColor_cases :
    (∀ r g b : Char, isHexDigit r = true → isHexDigit g = true → isHexDigit b = true →
      normalizeColor (.str (String.mk ['#', r, g, b]))
        = some (String.mk ['#', r, r, g, g, b, b]))
    ∧ (∀ ds : List Char, ds.length = 6 → (∀ c ∈ ds, isHexDigit c = true) →
      normalizeColor (.str (String.mk ('#' :: ds))) = some (String.mk ('#' :: ds)))
    ∧ (∀ v, isStr v = false → normalizeColor v = none)
    ∧ (∀ s : String, hexShapeTest (jsTrim s) = false → normalizeColor (.str s) = none) := by
  refine ⟨?_, ?_, ?_, ?_⟩
  · intro r g b hr hg hb
    have hnw : ∀ c ∈ (String.mk ['#', r, g, b]).toList, isJsWhite c = false := by
      intro c hc
      rw [toList_mk] at hc
      rcases List.mem_cons.mp hc with h | hc
      · subst h; decide
      rcases List.mem_cons.mp hc with h | hc
      · subst h; exact isHexDigit_not_white _ hr
      rcases List.mem_cons.mp hc with h | hc
      · subst h; exact isHexDigit_not_white _ hg
      rcases List.mem_cons.mp hc with h | hc
      · subst h; exact isHexDigit_not_white _ hb
      · exact absurd hc (List.not_mem_nil c)
    have htrim := jsTrim_eq_of_nonwhite _ hnw
    have h6 : hexColor6Test (String.mk ['#', r, g, b]) = false := by
      unfold hexColor6Test
      rw [toList_mk]
      simp
    have h3 : hexColor3Test (String.mk ['#', r, g, b]) = true :=
      hexColor3Test_of_shape [r, g, b] rfl (by
        intro c hc
        rcases List.mem_cons.mp hc with h | hc
        · subst h; exact hr
        rcases List.mem_cons.mp hc with h | hc
        · subst h; exact hg
        rcases List.mem_cons.mp hc with h | hc
        · subst h; exact hb
        · exact absurd hc (List.not_mem_nil c))
    simp [normalizeColor, htrim, h6, h3, toList_mk]
  · intro ds hlen hhex
    have hnw : ∀ c ∈ (String.mk ('#' :: ds)).toList, isJsWhite c = false := by
      intro c hc
      rw [toList_mk] at hc
      rcases List.mem_cons.mp hc with h | hc
      · subst h; decide
      · exact isHexDigit_not_white _ (hhex c hc)
    have htrim := jsTrim_eq_of_nonwhite _ hnw
    have h6 : hexColor6Test (String.mk ('#' :: ds)) = true :=
      hexColor6Test_of_shape ds hlen hhex
    simp [normalizeColor, htrim, h6]
  · intro v hv
    cases v with
    | str s => exact Bool.noConfusion hv
    | null => rfl
    | undefined => rfl
    | bool b => rfl
    | num n => rfl
    | arr xs => rfl
    | obj fs => rfl
  · intro s hshape
    have h6 : hexColor6Test (jsTrim s) = false := by
      cases hval : hexColor6Test (jsTrim s) with
      | false => rfl
      | true =>
        obtain ⟨ds, hds, hlen, hhex⟩ := hexColor6Test_shape _ hval
        rw [hexShapeTest_of_shape _ ds hds (Or.inr hlen) hhex] at hshape
        exact Bool.noConfusion hshape
    have h3 : hexColor3Test (jsTrim s) = false := by
      cases hval : hexColor3Test (jsTrim s) with
      | false => rfl
      | true =>
        obtain ⟨ds, hds, hlen, hhex⟩ := hexColor3Test_shape _ hval
        rw [hexShapeTest_of_shape _ ds hds (Or.inl hlen) hhex] at hshape
        exact Bool.noConfusion hshape
    simp [normalizeColor, h6, h3]

/-- Witness for C5: `"#abc"` expands to `"#aabbcc"`, `"#112233"` is returned
unchanged, a non-string and a non-colour string give the sentinel. -/
theorem normalizeColor_cases_witness :
    normalizeColor (.str "#abc") = some "#aabbcc"
    ∧ normalizeColor (.str "#112233") = some "#112233"
    ∧ normalizeColor (.num .nan) = none
    ∧ normalizeColor (.str "not-a-color") = none := by
  refine ⟨?_, ?_, ?_, ?_⟩
  · exact normalizeColor_cases.1 'a' 'b' 'c' (by decide) (by decide) (by decide)
  · exact normalizeColor_cases.2.1 ['1', '1', '2', '2', '3', '3'] (by decide) (by decide)
  · exact normalizeColor_cases.2.2.1 (.num .nan) rfl
  · exact normalizeColor_cases.2.2.2 "not-a-color" (by decide)

/-- Counterexample to claim C4 as stated: in
`{color: "not-a-color", pinColor: "#ff0000"}` the field `pinColor` is
present and normalizes to 6-hex-digit form, yet the resolved colour is the
fixed default, not `#ff0000`: the source normalizes only the first truthy
colour-like field. -/
theorem iconForMemory_counterexample :
    normalizeColor (.str "#ff0000") = some "#ff0000"
    ∧ iconForMemory (JSVal.obj [("color", .str "not-a-color"), ("pinColor", .str "#ff0000")])
      = iconFromColor (.colorStr "#3b82f6")
    ∧ iconForMemory (JSVal.obj [("color", .str "not-a-color"), ("pinColor", .str "#ff0000")])
      ≠ iconFromColor (.colorStr "#ff0000") := by
  refine ⟨rfl, rfl, ?_⟩
  intro h
  exact absurd (congrArg PinIcon.color h) (by decide)

/-- Claim C4 (amended): the marker colour is resolved from the first truthy
value among `color`, `pinColor`, `colour`: if that value normalizes to
6-hex-digit form it is used.  Otherwise (including when a later colour-like
field would have normalized) the lower-cased, trimmed category text is looked
up in the fixed category table by JavaScript bracket access: an own table
entry gives its colour; a category naming an `Object.prototype` property
(such as `constructor` or `__proto__`) yields that inherited truthy value,
stringified into the pin, instead of any colour; every other unknown or
absent category yields the fixed default colour.  The specification's two
worked examples hold. -/
theorem iconForMemory_resolution :
    (∀ m c, normalizeColor (firstTruthyVal [getField m "color", getField m "pinColor",
        getField m "colour"]) = some c →
      iconForMemory m = iconFromColor (.colorStr c))
    ∧ (∀ m c, normalizeColor (firstTruthyVal [getField m "color", getField m "pinColor",
        getField m "colour"]) = none →
      CATEGORY_COLORS.lookup (categoryKeyOf m) = some c →
      iconForMemory m = iconFromColor (.colorStr c))
    ∧ (∀ m, normalizeColor (firstTruthyVal [getField m "color", getField m "pinColor",
        getField m "colour"]) = none →
      CATEGORY_COLORS.lookup (categoryKeyOf m) = none →
      OBJECT_PROTOTYPE_KEYS.contains (categoryKeyOf m) = true →
      iconForMemory m = iconFromColor (.protoProperty (categoryKeyOf m)))
    ∧ (∀ m, normalizeColor (firstTruthyVal [getField m "color", getField m "pinColor",
        getField m "colour"]) = none →
      CATEGORY_COLORS.lookup (categoryKeyOf m) = none →
      OBJECT_PROTOTYPE_KEYS.contains (categoryKeyOf m) = false →
      iconForMemory m = iconFromColor (.colorStr categoryColorDefault))
    ∧ iconForMemory (JSVal.obj [("category", .str "Work")])
      = iconFromColor (.colorStr "#3b82f6")
    ∧ iconForMemory (JSVal.obj [("color", .str "#ff0000"), ("category", .str "work")])
      = iconFromColor (.colorStr "#ff0000")
    ∧ iconForMemory (JSVal.obj [("category", .str "constructor")])
      = iconFromColor (.protoProperty "constructor")
    ∧ iconForMemory (JSVal.obj [("category", .str "constructor")])
      ≠ iconFromColor (.colorStr categoryColorDefault) := by
  refine ⟨?_, ?_, ?_, ?_, rfl, rfl, rfl, ?_⟩
  · intro m c h
    rw [explicitColorOf_eq_firstTruthy] at h
    simp [iconForMemory, h]
  · intro m c h hlook
    rw [explicitColorOf_eq_firstTruthy] at h
    simp [iconForMemory, h, categoryFallbackValue, hlook]
  · intro m h hlook hproto
    rw [explicitColorOf_eq_firstTruthy] at h
    have hmem : categoryKeyOf m ∈ OBJECT_PROTOTYPE_KEYS := by simpa using hproto
    simp [iconForMemory, h, categoryFallbackValue, hlook, hmem]
  · intro m h hlook hproto
    rw [explicitColorOf_eq_firstTruthy] at h
    have hmem : categoryKeyOf m ∉ OBJECT_PROTOTYPE_KEYS := by simpa using hproto
    simp [iconForMemory, h, categoryFallbackValue, hlook, hmem]
  · intro h
    exact absurd (congrArg PinIcon.color h) (by decide)

/-- Witness for C4: an explicit `pinColor` is used when `color` is absent; a
table category resolves through the table; a category naming an inherited
`Object.prototype` property bypasses the default; a plain unknown category
falls back to the default colour. -/
theorem iconForMemory_resolution_witness :
    iconForMemory (JSVal.obj [("pinColor", .str "#ff0000")])
      = iconFromColor (.colorStr "#ff0000")
    ∧ iconForMemory (JSVal.obj [("category", .str "holiday")])
      = iconFromColor (.colorStr "#f59e0b")
    ∧ iconForMemory (JSVal.obj [("category", .str "__proto__")])
      = iconFromColor (.protoProperty "__proto__")
    ∧ iconForMemory (JSVal.obj [("category", .str "garden")])
      = iconFromColor (.colorStr categoryColorDefault) :=
  ⟨iconForMemory_resolution.1 _ "#ff0000" rfl,
    iconForMemory_resolution.2.1 _ "#f59e0b" rfl rfl,
    iconForMemory_resolution.2.2.1 _ rfl rfl rfl,
    iconForMemory_resolution.2.2.2.1 _ rfl rfl rfl⟩

/-- Counterexample to claim C1 as stated: `{latitude: NaN, longitude: 0}` is
an input map on which `toLatLng` returns neither a pair of two finite
numbers nor the sentinel: the first branch returns the numeric-typed fields
unchecked. -/
theorem toLatLng_counterexample :
    toLatLng (JSVal.obj [("latitude", .num .nan), ("longitude", .num (.fin 0))])
      = some (JNum.nan, JNum.fin 0)
    ∧ isFiniteNum JNum.nan = false :=
  ⟨rfl, rfl⟩

/-- Claim C1 (amended): `toLatLng` is total and returns either a pair of
numbers or the sentinel; a returned pair is finite unless it was produced by
one of the two numeric-typed fast paths, which return the numeric fields
unchanged even when non-finite; and whenever neither fast path matches and
the fallback pair does not parse to two finite numbers, the sentinel is
returned. -/
theorem toLatLng_total_or_sentinel :
    (∀ v a b, toLatLng v = some (a, b) →
      (isNumV (getField v "latitude") = true ∧ isNumV (getField v "longitude") = true)
      ∨ (isNumV (getField v "lat") = true
          ∧ isNumV (jsCoalesce (getField v "lng") (getField v "lon")) = true)
      ∨ (isFiniteNum a = true ∧ isFiniteNum b = true))
    ∧ (∀ v,
        ¬(isNumV (getField v "latitude") = true ∧ isNumV (getField v "longitude") = true) →
        ¬(isNumV (getField v "lat") = true
            ∧ isNumV (jsCoalesce (getField v "lng") (getField v "lon")) = true) →
        ¬(isFiniteNum (numOrParse (rawLatOf v)) = true
            ∧ isFiniteNum (numOrParse (rawLngOf v)) = true) →
        toLatLng v = none) := by
  constructor
  · intro v a b h
    unfold toLatLng at h
    split at h
    · exact Option.noConfusion h
    · split at h
      · rename_i la lo hla hlo
        left
        exact ⟨by simp [hla, isNumV], by simp [hlo, isNumV]⟩
      · split at h
        · rename_i la lo hla hlo
          right; left
          exact ⟨by simp [hla, isNumV], by simp [hlo, isNumV]⟩
        · split at h
          · rename_i hfin
            rw [Option.some_inj, Prod.mk.injEq] at h
            obtain ⟨ha, hb⟩ := h
            rw [Bool.and_eq_true] at hfin
            right; right
            exact ⟨ha ▸ hfin.1, hb ▸ hfin.2⟩
          · exact Option.noConfusion h
  · intro v hb1 hb2 hbf
    unfold toLatLng
    split
    · rfl
    · split
      · rename_i la lo hla hlo
        exact absurd ⟨by simp [hla, isNumV], by simp [hlo, isNumV]⟩ hb1
      · split
        · rename_i la lo hla hlo
          exact absurd ⟨by simp [hla, isNumV], by simp [hlo, isNumV]⟩ hb2
        · split
          · rename_i hfin
            rw [Bool.and_eq_true] at hfin
            exact absurd hfin hbf
          · rfl

/-- Witness for C1 (amended): a canonical numeric record falls into the
fast-path disjunct, and a record with no coordinate data resolves to the
sentinel. -/
theorem toLatLng_total_or_sentinel_witness :
    ((isNumV (getField (JSVal.obj [("latitude", .num (.fin 1)), ("longitude", .num (.fin 2))])
          "latitude") = true
      ∧ isNumV (getField (JSVal.obj [("latitude", .num (.fin 1)), ("longitude", .num (.fin 2))])
          "longitude") = true)
      ∨ (isNumV (getField (JSVal.obj [("latitude", .num (.fin 1)), ("longitude", .num (.fin 2))])
            "lat") = true
          ∧ isNumV (jsCoalesce
              (getField (JSVal.obj [("latitude", .num (.fin 1)), ("longitude", .num (.fin 2))])
                "lng")
              (getField (JSVal.obj [("latitude", .num (.fin 1)), ("longitude", .num (.fin 2))])
                "lon")) = true)
      ∨ (isFiniteNum (JNum.fin 1) = true ∧ isFiniteNum (JNum.fin 2) = true))
    ∧ toLatLng (JSVal.obj [("note", .str "no coords")]) = none :=
  ⟨toLatLng_total_or_sentinel.1
      (JSVal.obj [("latitude", .num (.fin 1)), ("longitude", .num (.fin 2))])
      (.fin 1) (.fin 2) rfl,
    toLatLng_total_or_sentinel.2 (JSVal.obj [("note", .str "no coords")])
      (by decide) (by decide) (by with_unfolding_all decide)⟩

end MemoryMap
